import Mathlib

/-!
Verification of the MongoDB query/command translation layer of the repository
(class MongoDBDatabase: methods parseShellSyntax, splitArgs, normalizeQueryObject
and query). The TypeScript source is shallowly embedded: JSON values become the
inductive `JsonValue`, `JSON.parse` becomes the executable parser `jsonParse`,
the two shell-syntax regular expressions become hand-written leftmost matchers
with JavaScript backtracking semantics, and the `query` method becomes a pure
function parameterised by the document store (a function from store actions to
results) that additionally returns the list of store primitives invoked, so that
dispatch behaviour is observable. JavaScript truthiness, `String.prototype.trim`,
`parseInt` and property access are modelled explicitly.
-/

namespace MongoDBDatabase

/-- The double-quote character. -/
def dquote : Char := Char.ofNat 34

/-- The single-quote character. -/
def squote : Char := Char.ofNat 39

/-- The backslash character. -/
def bslash : Char := Char.ofNat 92

/-- Whitespace for JavaScript `String.prototype.trim` (WhiteSpace and
LineTerminator code points). -/
def jsIsWs (c : Char) : Bool :=
  c = ' ' || c = Char.ofNat 9 || c = Char.ofNat 10 || c = Char.ofNat 11 ||
  c = Char.ofNat 12 || c = Char.ofNat 13 || c = Char.ofNat 0xa0 ||
  c = Char.ofNat 0x1680 ||
  (0x2000 ≤ c.toNat && c.toNat ≤ 0x200a) ||
  c = Char.ofNat 0x2028 || c = Char.ofNat 0x2029 || c = Char.ofNat 0x202f ||
  c = Char.ofNat 0x205f || c = Char.ofNat 0x3000 || c = Char.ofNat 0xfeff

/-- JavaScript `String.prototype.trim` on a character list. -/
def jsTrimChars (l : List Char) : List Char :=
  ((l.dropWhile jsIsWs).reverse.dropWhile jsIsWs).reverse

/-- JavaScript `String.prototype.trim`. -/
def jsTrim (s : String) : String :=
  (jsTrimChars s.toList).asString

/-- Structured dynamic values: the results of `JSON.parse` plus the `NaN`
produced by `parseInt` on non-numeric text. A JSON number literal with digits
`m` and decimal exponent `e` denotes `m * 10 ^ e`; objects are key-ordered
field lists (JavaScript insertion order, duplicate keys already collapsed by
the parser's assignment semantics). -/
inductive JsonValue where
  | null
  | bool (b : Bool)
  | num (m : Int) (e : Int)
  | nan
  | str (s : String)
  | arr (elems : List JsonValue)
  | obj (fields : List (String × JsonValue))

/-- JavaScript truthiness of a value. -/
def jvTruthy : JsonValue → Bool
  | .null => false
  | .bool b => b
  | .num m _ => m ≠ 0
  | .nan => false
  | .str s => s ≠ ""
  | .arr _ => true
  | .obj _ => true

/-- Truthiness of a property-access result (`none` models `undefined`). -/
def truthyO : Option JsonValue → Bool
  | none => false
  | some v => jvTruthy v

/-- Whether a value is an array (`Array.isArray`). -/
def jvIsArr : JsonValue → Bool
  | .arr _ => true
  | _ => false

/-- `Array.isArray` applied to a property-access result. -/
def jvIsArrO : Option JsonValue → Bool
  | some v => jvIsArr v
  | none => false

/-- Whether a value is a non-array object (`typeof v === "object"` and not an
array; `null` never reaches this test in the translated control flow because
`normalizeQueryObject` has already failed on it). -/
def jvIsObj : JsonValue → Bool
  | .obj _ => true
  | _ => false

/-- Set a field on an object's field list: JavaScript assignment updates the
value at the first (only) occurrence of the key, keeping its position, and
appends otherwise. -/
def objSet : List (String × JsonValue) → String → JsonValue → List (String × JsonValue)
  | [], k, v => [(k, v)]
  | (k0, v0) :: rest, k, v =>
    if k0 = k then (k0, v) :: rest else (k0, v0) :: objSet rest k v

/-- First-occurrence key deduplication, preserving order (objects produced by
the embedded parser never contain duplicates, so this is the identity there). -/
def dedupKeys (l : List String) (seen : List String) : List String :=
  match l with
  | [] => []
  | k :: rest =>
    if seen.contains k then dedupKeys rest seen else k :: dedupKeys rest (k :: seen)

/-- `Object.keys` restricted to object values. -/
def jvObjKeys : JsonValue → List String
  | .obj kvs => dedupKeys (kvs.map Prod.fst) []
  | _ => []

/-- JavaScript property access `v[k]` for a string key; `none` models
`undefined`. Index properties of arrays and strings other than `length` are
not modelled: the translated code only reads named, non-numeric keys (such as
`collection`, `pipeline`, `method`) on such values, where access yields
`undefined`. -/
def jsGet : JsonValue → String → Option JsonValue
  | .obj kvs, k => (kvs.find? (fun kv => kv.1 = k)).map Prod.snd
  | .arr l, k => if k = "length" then some (.num l.length 0) else none
  | .str s, k => if k = "length" then some (.num s.length 0) else none
  | _, _ => none

/-- `Object.keys` as used by `normalizeQueryObject`; throws a `TypeError` on
`null` (message as raised by V8). Index-key ordering for numeric object keys is
not modelled (no translated input uses numeric keys). -/
def jsKeys : JsonValue → Except String (List String)
  | .null => .error "Cannot convert undefined or null to object"
  | .obj kvs => .ok (dedupKeys (kvs.map Prod.fst) [])
  | .arr l => .ok ((List.range l.length).map Nat.repr)
  | .str s => .ok ((List.range s.length).map Nat.repr)
  | _ => .ok []

/-- Array/string indexing `v[i]`; `none` models `undefined`. -/
def jvIndex : JsonValue → Nat → Option JsonValue
  | .arr l, i => l.getD i .null |> fun x => if i < l.length then some x else none
  | .str s, i => if i < s.length then some (.str (s.toList.getD i ' ').toString) else none
  | _, _ => none

/-- The JavaScript `length` property as a number, when it exists. -/
def jvLen : JsonValue → Option Nat
  | .arr l => some l.length
  | .str s => some s.length
  | _ => none

/-- The test `v.length < 1` under JavaScript semantics: comparing `undefined`
with a number is false. -/
def jvLenLt1 (v : JsonValue) : Bool :=
  match jvLen v with
  | some n => n < 1
  | none => false

/-- `v[i] || d`: the indexed element when present and truthy, else `d`. -/
def jvIndexOr (v : JsonValue) (i : Nat) (d : JsonValue) : JsonValue :=
  match jvIndex v i with
  | some x => if jvTruthy x then x else d
  | none => d

/-- JSON whitespace (the four characters accepted by `JSON.parse`). -/
def isJsonWs (c : Char) : Bool :=
  c = ' ' || c = Char.ofNat 9 || c = Char.ofNat 10 || c = Char.ofNat 13

/-- Drop leading JSON whitespace. -/
def skipWs : List Char → List Char
  | c :: rest => if isJsonWs c then skipWs rest else c :: rest
  | [] => []

/-- Leading run of decimal digits. -/
def takeDigits (l : List Char) : List Char × List Char :=
  l.span Char.isDigit

/-- Digits to a natural number. -/
def digitsToNat (l : List Char) : Nat :=
  l.foldl (fun n c => n * 10 + (c.toNat - 48)) 0

/-- Value of a hexadecimal digit, 0 when not one. -/
def hexVal (c : Char) : Nat :=
  if c.isDigit then c.toNat - 48
  else if 'a' ≤ c ∧ c ≤ 'f' then c.toNat - 87
  else if 'A' ≤ c ∧ c ≤ 'F' then c.toNat - 55
  else 0

/-- Whether a character is a hexadecimal digit. -/
def isHex (c : Char) : Bool :=
  c.isDigit || ('a' ≤ c && c ≤ 'f') || ('A' ≤ c && c ≤ 'F')

/-- Parse the body of a JSON string (the opening quote already consumed),
decoding escapes; fuel-driven for totality. -/
def parseJStringAux : Nat → List Char → List Char → Except String (String × List Char)
  | 0, _, _ => .error "JSON string too long"
  | _ + 1, [], _ => .error "Unterminated string in JSON"
  | fuel + 1, c :: rest, acc =>
    if c = dquote then .ok (acc.reverse.asString, rest)
    else if c = bslash then
      match rest with
      | [] => .error "Bad escape in JSON"
      | e :: rest2 =>
        if e = dquote then parseJStringAux fuel rest2 (dquote :: acc)
        else if e = bslash then parseJStringAux fuel rest2 (bslash :: acc)
        else if e = '/' then parseJStringAux fuel rest2 ('/' :: acc)
        else if e = 'b' then parseJStringAux fuel rest2 (Char.ofNat 8 :: acc)
        else if e = 'f' then parseJStringAux fuel rest2 (Char.ofNat 12 :: acc)
        else if e = 'n' then parseJStringAux fuel rest2 (Char.ofNat 10 :: acc)
        else if e = 'r' then parseJStringAux fuel rest2 (Char.ofNat 13 :: acc)
        else if e = 't' then parseJStringAux fuel rest2 (Char.ofNat 9 :: acc)
        else if e = 'u' then
          match rest2 with
          | h1 :: h2 :: h3 :: h4 :: rest3 =>
            if isHex h1 && isHex h2 && isHex h3 && isHex h4 then
              let n := ((hexVal h1 * 16 + hexVal h2) * 16 + hexVal h3) * 16 + hexVal h4
              parseJStringAux fuel rest3 (Char.ofNat n :: acc)
            else .error "Bad unicode escape in JSON"
          | _ => .error "Bad unicode escape in JSON"
        else .error "Bad escape in JSON"
    else if c.toNat < 32 then .error "Bad control character in JSON string"
    else parseJStringAux fuel rest (c :: acc)

/-- Parse a JSON number starting at `l` (first char is `-` or a digit). -/
def parseNumber (l : List Char) : Except String (JsonValue × List Char) :=
  let (neg, l1) :=
    match l with
    | c :: rest => if c = '-' then (true, rest) else (false, l)
    | [] => (false, l)
  match l1 with
  | [] => .error "Unexpected end of JSON input"
  | c :: rest =>
    if ¬ c.isDigit then .error "Invalid number in JSON"
    else
      let (ipart, l2) :=
        if c = '0' then ([c], rest)
        else takeDigits l1
      let (fpart, l3) :=
        match l2 with
        | '.' :: r =>
          let (d, r2) := takeDigits r
          (d, r2)
        | _ => ([], l2)
      let fracOk : Bool :=
        match l2 with
        | '.' :: _ => ¬ fpart.isEmpty
        | _ => true
      let (expOk, expVal, l4) :=
        match l3 with
        | e :: r =>
          if e = 'e' ∨ e = 'E' then
            let (esign, r1) :=
              match r with
              | s :: r2 => if s = '+' then ((1 : Int), r2)
                           else if s = '-' then ((-1 : Int), r2)
                           else ((1 : Int), r)
              | [] => ((1 : Int), r)
            let (ed, r3) := takeDigits r1
            if ed.isEmpty then (false, (0 : Int), l3)
            else (true, esign * (digitsToNat ed : Int), r3)
          else (true, (0 : Int), l3)
        | [] => (true, (0 : Int), l3)
      if ¬ fracOk then .error "Invalid number in JSON"
      else if ¬ expOk then .error "Invalid number in JSON"
      else
        let mAbs : Int := (digitsToNat (ipart ++ fpart) : Int)
        let m := if neg then -mAbs else mAbs
        .ok (.num m (expVal - (fpart.length : Int)), l4)

/-- Does `pre` occur at the head of `l`? -/
def charsHasPre : List Char → List Char → Bool
  | [], _ => true
  | _ :: _, [] => false
  | a :: as, b :: bs => a == b && charsHasPre as bs

mutual

/-- Parse one JSON value at the head of the input (no leading whitespace). -/
def parseVal : Nat → List Char → Except String (JsonValue × List Char)
  | 0, _ => .error "JSON value too deeply nested"
  | fuel + 1, l =>
    match l with
    | [] => .error "Unexpected end of JSON input"
    | c :: rest =>
      if c = dquote then
        match parseJStringAux (rest.length + 1) rest [] with
        | .ok (s, r) => .ok (.str s, r)
        | .error e => .error e
      else if c = '-' ∨ c.isDigit then parseNumber l
      else if c = '[' then
        match skipWs rest with
        | ']' :: r2 => .ok (.arr [], r2)
        | r => parseArrElems fuel r []
      else if c = '{' then
        match skipWs rest with
        | '}' :: r2 => .ok (.obj [], r2)
        | r => parseObjMembers fuel r []
      else if charsHasPre "true".toList l then .ok (.bool true, l.drop 4)
      else if charsHasPre "false".toList l then .ok (.bool false, l.drop 5)
      else if charsHasPre "null".toList l then .ok (.null, l.drop 4)
      else .error "Unexpected token in JSON"

/-- Parse the elements of a JSON array (at least one element expected). -/
def parseArrElems : Nat → List Char → List JsonValue → Except String (JsonValue × List Char)
  | 0, _, _ => .error "JSON value too deeply nested"
  | fuel + 1, l, acc =>
    match parseVal fuel (skipWs l) with
    | .error e => .error e
    | .ok (v, r) =>
      match skipWs r with
      | ',' :: r2 => parseArrElems fuel r2 (v :: acc)
      | ']' :: r2 => .ok (.arr (v :: acc).reverse, r2)
      | _ => .error "Expected comma or closing bracket in JSON array"

/-- Parse the members of a JSON object (at least one member expected);
duplicate keys follow JavaScript assignment semantics. -/
def parseObjMembers : Nat → List Char → List (String × JsonValue) →
    Except String (JsonValue × List Char)
  | 0, _, _ => .error "JSON value too deeply nested"
  | fuel + 1, l, kvs =>
    match l with
    | [] => .error "Unexpected end of JSON input"
    | c :: rest =>
      if c = dquote then
        match parseJStringAux (rest.length + 1) rest [] with
        | .error e => .error e
        | .ok (k, r) =>
          match skipWs r with
          | ':' :: r2 =>
            match parseVal fuel (skipWs r2) with
            | .error e => .error e
            | .ok (v, r3) =>
              let kvs2 := objSet kvs k v
              match skipWs r3 with
              | ',' :: r4 => parseObjMembers fuel (skipWs r4) kvs2
              | '}' :: r4 => .ok (.obj kvs2, r4)
              | _ => .error "Expected comma or closing brace in JSON object"
          | _ => .error "Expected colon in JSON object"
      else .error "Expected string key in JSON object"

end

/-- `JSON.parse`: parse a complete JSON text. The error strings are this
model's descriptions of the parse failure (engine message texts are
implementation-defined in JavaScript). -/
def jsonParse (s : String) : Except String JsonValue :=
  let l := skipWs s.toList
  match parseVal (2 * s.length + 4) l with
  | .ok (v, r) =>
    if skipWs r = [] then .ok v else .error "Unexpected trailing characters in JSON"
  | .error e => .error e

/-- Does `needle` occur anywhere in `hay` (`String.prototype.includes`)? -/
def charsContains (needle : List Char) : List Char → Bool
  | [] => charsHasPre needle []
  | hay@(_ :: t) => charsHasPre needle hay || charsContains needle t

/-- Match the ObjectId literal regular expression at the head of the input:
literal `ObjectId(`, a quote, one or more non-quote characters (captured), a
quote, then `)`. Returns the capture and the rest. -/
def matchObjectIdAt (l : List Char) : Option (List Char × List Char) :=
  if charsHasPre "ObjectId(".toList l then
    match l.drop 9 with
    | q :: l2 =>
      if q = dquote ∨ q = squote then
        let (cap, r) := l2.span (fun c => !(c == dquote || c == squote))
        if cap.isEmpty then none
        else
          match r with
          | q2 :: ')' :: rest =>
            if q2 = dquote ∨ q2 = squote then some (cap, rest) else none
          | _ => none
      else none
    | [] => none
  else none

/-- Global replacement of ObjectId literals by plain quoted strings, i.e.
`currentArg.replace(ObjectId-regex, quoted-capture)`: leftmost, non-overlapping. -/
def objectIdReplace : Nat → List Char → List Char
  | _, [] => []
  | 0, l => l
  | fuel + 1, l@(h :: t) =>
    match matchObjectIdAt l with
    | some (cap, rest) => dquote :: (cap ++ dquote :: objectIdReplace fuel rest)
    | none => h :: objectIdReplace fuel t

/-- Coerce one comma-separated argument segment into a value, as the body of
`splitArgs` does at each top-level comma and at the end of the scan: try
`JSON.parse` on the trimmed text; on failure rewrite ObjectId literals when
present and retry; otherwise keep the trimmed text as a raw string. -/
def parseSegment (cur : List Char) : JsonValue :=
  let s := cur.asString
  match jsonParse (jsTrim s) with
  | .ok v => v
  | .error _ =>
    if charsContains "ObjectId(".toList cur then
      let s2 := (objectIdReplace (cur.length + 1) cur).asString
      match jsonParse (jsTrim s2) with
      | .ok v => v
      | .error _ => .str (jsTrim s2)
    else .str (jsTrim s)

/-- The control state of the `splitArgs` character scan: brace depth, bracket
depth, quote state, current quote character and the previous character of the
original string (for the escape check `argsStr[i-1] !== backslash`). -/
structure Ctl where
  brace : Int
  square : Int
  inQ : Bool
  qc : Char
  prev : Option Char

/-- Initial control state. -/
def ctl0 : Ctl := ⟨0, 0, false, dquote, none⟩

/-- One step of the control state: quote toggling first (respecting the escape
check), then brace/bracket counting outside quotes, exactly as in `splitArgs`. -/
def ctlStep (st : Ctl) (c : Char) : Ctl :=
  let (inQ, qc) :=
    if (c = dquote ∨ c = squote) ∧ st.prev ≠ some bslash then
      if ¬ st.inQ then (true, c)
      else if c = st.qc then (false, st.qc)
      else (st.inQ, st.qc)
    else (st.inQ, st.qc)
  let (brace, square) :=
    if ¬ inQ then
      (st.brace + (if c = '{' then 1 else 0) - (if c = '}' then 1 else 0),
       st.square + (if c = '[' then 1 else 0) - (if c = ']' then 1 else 0))
    else (st.brace, st.square)
  ⟨brace, square, inQ, qc, some c⟩

/-- Whether this character is an argument-separating comma: a comma at zero
brace and bracket depth, outside quotes (a comma never toggles quotes nor
changes the depths, so the pre-state depths are the ones tested). -/
def isSplitComma (st : Ctl) (c : Char) : Bool :=
  c = ',' && !st.inQ && st.brace == 0 && st.square == 0

/-- Scan state of the slow path of `splitArgs`: control state, pending segment
characters and the arguments pushed so far. -/
structure ScanSt where
  ctl : Ctl
  cur : List Char
  args : List JsonValue

/-- One character of the `splitArgs` scan: at a separating comma the pending
segment is coerced and pushed and the accumulator is reset (the comma is not
appended); otherwise the character is appended to the pending segment. -/
def scanStep (st : ScanSt) (c : Char) : ScanSt :=
  if isSplitComma st.ctl c then ⟨ctlStep st.ctl c, [], st.args ++ [parseSegment st.cur]⟩
  else ⟨ctlStep st.ctl c, st.cur ++ [c], st.args⟩

/-- The character-scanning path of `splitArgs` (reached when the direct
bracketed `JSON.parse` fails): scan all characters, then push the final
segment when its trimmed text is nonempty. -/
def slowSplit (argsStr : String) : List JsonValue :=
  let st := argsStr.toList.foldl scanStep ⟨ctl0, [], []⟩
  st.args ++ (if jsTrim st.cur.asString = "" then [] else [parseSegment st.cur])

/-- `splitArgs`: the literal tokenizer. Empty or all-whitespace input yields
the empty sequence; otherwise the fast path wraps the result of
`JSON.parse("[" + argsStr + "]")` in a singleton list, and only when that parse
fails does the character scan run. The function is total (every `JSON.parse`
in the source occurrence is guarded by try/catch). -/
def splitArgs (argsStr : String) : List JsonValue :=
  if jsTrim argsStr = "" then []
  else
    match jsonParse ("[" ++ argsStr ++ "]") with
    | .ok v => [v]
    | .error _ => slowSplit argsStr

/-- Spec-side state for counting top-level comma-separated substrings, with
the same control state as the source scan. -/
structure SegSt where
  ctl : Ctl
  cur : List Char
  segs : List (List Char)

/-- Spec-side step: record the raw segment at each separating comma. -/
def segStep (st : SegSt) (c : Char) : SegSt :=
  if isSplitComma st.ctl c then ⟨ctlStep st.ctl c, [], st.segs ++ [st.cur]⟩
  else ⟨ctlStep st.ctl c, st.cur ++ [c], st.segs⟩

/-- The top-level comma-separated argument substrings of a string, in the
sense of the claim: commas at zero brace/bracket depth and outside quotes
separate segments, so a string with n such commas has n+1 segments. -/
def topLevelSegments (s : String) : List (List Char) :=
  let st := s.toList.foldl segStep ⟨ctl0, [], []⟩
  st.segs ++ [st.cur]

/-- A word character, as matched by the `\w` regular-expression class. -/
def isWordChar (c : Char) : Bool :=
  c.isAlpha || c.isDigit || c = '_'

/-- Drop a literal from the head of the input, or fail. -/
def dropLit : List Char → List Char → Option (List Char)
  | [], l => some l
  | _ :: _, [] => none
  | a :: as, b :: bs => if a = b then dropLit as bs else none

/-- A regular-expression line terminator (the characters the dot does not
match). -/
def isLineTerm (c : Char) : Bool :=
  c = Char.ofNat 10 || c = Char.ofNat 13 || c = Char.ofNat 0x2028 || c = Char.ofNat 0x2029

/-- The greedy capture of the pattern tail `(.*)\)`: within the current line,
the characters up to the last closing parenthesis; fails when the line has
none. -/
def lastCloseParen (l : List Char) : Option (List Char) :=
  let line := l.takeWhile (fun c => !(isLineTerm c))
  match line.reverse.dropWhile (fun c => c != ')') with
  | [] => none
  | _ :: tailRev => some tailRev.reverse

/-- Attempt the getCollection pattern at this start position: literal
`db.getCollection(`, a quote, one or more non-quote characters (the collection
name), a quote, then `).`, a word run (the method), `(`, and the greedy
argument capture. -/
def tryGetCollAt (l : List Char) : Option (String × String × String) :=
  match dropLit "db.getCollection(".toList l with
  | none => none
  | some l1 =>
    match l1 with
    | [] => none
    | q :: l2 =>
      if q = dquote ∨ q = squote then
        let (nm, l3) := l2.span (fun c => !(c == dquote || c == squote))
        if nm.isEmpty then none
        else
          match l3 with
          | q2 :: ')' :: '.' :: l4 =>
            if q2 = dquote ∨ q2 = squote then
              let (mth, l5) := l4.span isWordChar
              if mth.isEmpty then none
              else
                match l5 with
                | '(' :: l6 =>
                  (lastCloseParen l6).map (fun a => (nm.asString, mth.asString, a.asString))
                | _ => none
            else none
          | _ => none
      else none

/-- Attempt the direct-collection pattern at this start position: literal
`db.`, a word run (the collection name), `.`, a word run (the method), `(`,
and the greedy argument capture. -/
def tryDirectAt (l : List Char) : Option (String × String × String) :=
  match dropLit "db.".toList l with
  | none => none
  | some l1 =>
    let (nm, l2) := l1.span isWordChar
    if nm.isEmpty then none
    else
      match l2 with
      | '.' :: l3 =>
        let (mth, l4) := l3.span isWordChar
        if mth.isEmpty then none
        else
          match l4 with
          | '(' :: l5 =>
            (lastCloseParen l5).map (fun a => (nm.asString, mth.asString, a.asString))
          | _ => none
      | _ => none

/-- Leftmost match of an unanchored pattern: try every start position in
order, as the backtracking regular-expression engine does. -/
def scanLeftmost (tryAt : List Char → Option (String × String × String)) :
    Nat → List Char → Option (String × String × String)
  | 0, _ => none
  | fuel + 1, l =>
    match tryAt l with
    | some r => some r
    | none =>
      match l with
      | [] => none
      | _ :: t => scanLeftmost tryAt fuel t

/-- One match of the chained-call pattern `\.(\w+)\(([^)]*)\)` at this start
position: returns the whole match, the method name, the argument text and the
remaining input. -/
def tryCursorAt (l : List Char) : Option (String × String × String × List Char) :=
  match l with
  | '.' :: l1 =>
    let (w, l2) := l1.span isWordChar
    if w.isEmpty then none
    else
      match l2 with
      | '(' :: l3 =>
        let (a, l4) := l3.span (fun c => c != ')')
        match l4 with
        | ')' :: rest =>
          some (('.' :: (w ++ '(' :: (a ++ [')']))).asString, w.asString, a.asString, rest)
        | _ => none
      | _ => none
  | _ => none

/-- All successive non-overlapping matches of the chained-call pattern, left
to right, as the global `exec` loop produces them. -/
def cursorScan : Nat → List Char → List (String × String × String)
  | 0, _ => []
  | fuel + 1, l =>
    match tryCursorAt l with
    | some (whole, name, args, rest) => (whole, name, args) :: cursorScan fuel rest
    | none =>
      match l with
      | [] => []
      | _ :: t => cursorScan fuel t

/-- Remove the first occurrence of `needle` from `hay`
(`String.prototype.replace` with a string pattern and empty replacement). -/
def removeFirstChars (needle : List Char) : Nat → List Char → List Char
  | _, [] => []
  | 0, hay => hay
  | fuel + 1, hay@(h :: t) =>
    if charsHasPre needle hay then hay.drop needle.length
    else h :: removeFirstChars needle fuel t

/-- String-level first-occurrence removal. -/
def removeFirst (needle hay : String) : String :=
  (removeFirstChars needle.toList (hay.length + 1) hay.toList).asString

/-- JavaScript `parseInt(s, 10)`: skip leading whitespace, an optional sign,
then at least one decimal digit; otherwise NaN (`none`). -/
def parseIntJs (s : String) : Option Int :=
  let l := s.toList.dropWhile jsIsWs
  let (neg, l1) :=
    match l with
    | c :: rest =>
      if c = '-' then (true, rest) else if c = '+' then (false, rest) else (false, l)
    | [] => (false, l)
  let (d, _) := takeDigits l1
  if d.isEmpty then none
  else some (if neg then -(digitsToNat d : Int) else (digitsToNat d : Int))

/-- The chained cursor methods recognized by the parser. -/
def validCursor : List String := ["sort", "limit", "skip", "project", "count"]

/-- Set a field on the options argument `args[1]`. JavaScript property
assignment is modelled on object values only: the synthesized options argument
is always an object in the translated control flow (assignment to a primitive
`args[1]` would raise a TypeError in strict mode and is outside every claim). -/
def setArg1 (args : List JsonValue) (k : String) (v : JsonValue) : List JsonValue :=
  match args with
  | a0 :: .obj kvs :: rest => a0 :: .obj (objSet kvs k v) :: rest
  | _ => args

/-- Parse a cursor-modifier literal: `JSON.parse` of the text, and on failure
a retry with enclosing braces; `none` when both fail (the option field is then
left unset). -/
def tryParseLoose (t : String) : Option JsonValue :=
  match jsonParse t with
  | .ok v => some v
  | .error _ =>
    match jsonParse ("\x7b" ++ t ++ "\x7d") with
    | .ok v => some v
    | .error _ => none

/-- Fold one recognized cursor method into the options argument, as the
switch over cursor methods does (`count` is recognized but has no case, so it
only disappears from the argument text). -/
def applyCursorOne (args : List JsonValue) (name argText : String) : List JsonValue :=
  if name = "sort" then
    match tryParseLoose argText with
    | some v => setArg1 args "sort" v
    | none => args
  else if name = "limit" then
    setArg1 args "limit" (match parseIntJs argText with | some n => .num n 0 | none => .nan)
  else if name = "skip" then
    setArg1 args "skip" (match parseIntJs argText with | some n => .num n 0 | none => .nan)
  else if name = "project" then
    match tryParseLoose argText with
    | some v => setArg1 args "projection" v
    | none => args
  else args

/-- The parsed form of a shell invocation. -/
structure ShellParsed where
  collectionName : String
  method : String
  args : List JsonValue

/-- The shell-syntax recognizer (`parseShellSyntax` in the source): match the
two collection patterns with getCollection priority; extract the recognized
chained cursor calls and remove each one's matched text from the argument
string (first occurrence); tokenize the cleaned argument text (the source's
fallback re-tokenization is unreachable because `splitArgs` never raises); and
for `find` with at least one cursor method, pad the arguments to a filter and
an options object and fold each cursor method into the options. -/
def parseShell (query : String) : Option ShellParsed :=
  let chars := query.toList
  let m :=
    match scanLeftmost tryGetCollAt (chars.length + 1) chars with
    | some r => some r
    | none => scanLeftmost tryDirectAt (chars.length + 1) chars
  match m with
  | none => none
  | some (cName, method, argsStr) =>
    let cms := (cursorScan (argsStr.length + 1) argsStr.toList).filter
      (fun e => validCursor.contains e.2.1)
    let clean := cms.foldl (fun s e => removeFirst e.1 s) argsStr
    let args := if jsTrim clean = "" then [] else splitArgs clean
    let args :=
      if method = "find" ∧ ¬ cms.isEmpty then
        let args := if args.length = 0 then [JsonValue.obj []] else args
        let args := if args.length = 1 then args ++ [JsonValue.obj []] else args
        cms.foldl (fun a e => applyCursorOne a e.2.1 e.2.2) args
      else args
    some ⟨cName, method, args⟩

/-- The recognized aggregation pipeline stage operators. -/
def pipelineStages : List String :=
  ["$match", "$sort", "$limit", "$skip", "$project", "$group",
   "$unwind", "$lookup", "$count", "$facet", "$addFields", "$replaceRoot", "$sample"]

/-- `normalizeQueryObject`: arrays pass through; a mapping with top-level
`$`-stage keys and neither `collection` nor `pipeline` becomes a raw stage
array; a mapping with a truthy `collection`, a falsy `pipeline`, and some
other key whose `$`-prefixed form is a stage operator becomes a
`collection`/`pipeline` mapping (stages in key-encounter order); everything
else is returned unchanged (the source's explicit `collection` with array
`pipeline` case and its default case both return the input). `Object.keys` on
`null` raises, modelled by the error case. -/
def normalizeQueryObject (queryObj : JsonValue) : Except String JsonValue :=
  if jvIsArr queryObj then .ok queryObj
  else
    match jsKeys queryObj with
    | .error e => .error e
    | .ok keys =>
      let hasPipelineStages := keys.any (fun k => pipelineStages.contains k)
      if hasPipelineStages && !truthyO (jsGet queryObj "collection") &&
          !truthyO (jsGet queryObj "pipeline") then
        .ok (.arr (keys.filterMap (fun k =>
          if pipelineStages.contains k then
            some (.obj [(k, (jsGet queryObj k).getD .null)])
          else none)))
      else
        let hasQuery := keys.any (fun k => k != "collection" &&
          pipelineStages.contains ("$" ++ k))
        if truthyO (jsGet queryObj "collection") && !truthyO (jsGet queryObj "pipeline") &&
            hasQuery then
          .ok (.obj [("collection", (jsGet queryObj "collection").getD .null),
                     ("pipeline", .arr (keys.filterMap (fun k =>
                       if k != "collection" && pipelineStages.contains ("$" ++ k) then
                         some (.obj [("$" ++ k, (jsGet queryObj k).getD .null)])
                       else none)))])
        else .ok queryObj

/-- The store primitives the read path can invoke, with their arguments.
Collection names are carried as values because the source passes `params[0]`
or a parsed field to `db.collection` unchecked. `findFilterOnly` is the
single-argument `collection.find(filter)` call of the flat-filter route. -/
inductive StoreAction where
  | find (coll filter options : JsonValue)
  | findFilterOnly (coll filter : JsonValue)
  | findOne (coll filter options : JsonValue)
  | aggregate (coll pipeline : JsonValue)
  | countDocuments (coll filter : JsonValue)
  | distinct (coll field filter : JsonValue)
  | command (doc : JsonValue)

/-- The behaviour of the underlying store: each primitive either returns a
result document or fails with the driver's error message. -/
def Store := StoreAction → Except String JsonValue

/-- Perform one store call, recording it in the call log. -/
def callStore (store : Store) (a : StoreAction) : Except String JsonValue × List StoreAction :=
  (store a, [a])

/-- Prefix an error message, as the wrapping rethrows in the catch blocks do. -/
def wrapFail (p : String) : Except String JsonValue → Except String JsonValue
  | .ok v => .ok v
  | .error m => .error (p ++ m)

/-- The fixed invalid-query message thrown by the object fallback branches. -/
def expectedMsg : String :=
  "Invalid query format. Expected an array pipeline with collection name in params[0], \x7bcollection: string, pipeline: array\x7d, MongoDB shell syntax, or a valid command document"

/-- The message thrown when a pipeline array has no resolvable collection. -/
def collReqMsg : String :=
  "Collection name is required as the first parameter when pipeline is an array"

/-- Stringification of a property key (`{[method]: ...}`); only the string
case is exercised by the translated inputs. -/
def jsKeyOf : JsonValue → String
  | .str s => s
  | .bool b => toString b
  | .null => "null"
  | .nan => "NaN"
  | .num m e => toString m ++ (if e = 0 then "" else "e" ++ toString e)
  | .arr _ => ""
  | .obj _ => "[object Object]"

/-- The `parsedQuery.args || []` default of the object-with-method branch. -/
def jsArgsOr (v : JsonValue) : JsonValue :=
  if truthyO (jsGet v "args") then (jsGet v "args").getD .null else .arr []

/-- Dispatch of the shell-syntax branch of `query`: the dedicated read
primitives with their positional-argument defaults, `distinct` requiring a
first argument, and the generic command fallback whose store failure is
reported as an unsupported shell method. The read-shaped and aggregate
argument reshaping inside the source's fallback is unreachable (those method
names are handled by the dedicated cases above) and is not modelled. -/
def shellDispatch (store : Store) (cName method : String) (args : List JsonValue) :
    Except String JsonValue × List StoreAction :=
  if method = "find" then
    callStore store (.find (.str cName) (args.getD 0 (.obj [])) (args.getD 1 (.obj [])))
  else if method = "findOne" then
    callStore store (.findOne (.str cName) (args.getD 0 (.obj [])) (args.getD 1 (.obj [])))
  else if method = "aggregate" then
    callStore store (.aggregate (.str cName) (args.getD 0 (.arr [])))
  else if method = "count" ∨ method = "countDocuments" then
    callStore store (.countDocuments (.str cName) (args.getD 0 (.obj [])))
  else if method = "distinct" then
    if args.length < 1 then (.error "distinct requires a field parameter", [])
    else callStore store (.distinct (.str cName) (args.getD 0 .null) (args.getD 1 (.obj [])))
  else
    let cmd := (List.range args.length).foldl
      (fun kvs i => objSet kvs ("arg" ++ Nat.repr i) (args.getD i .null))
      [(method, JsonValue.str cName)]
    match store (.command (.obj cmd)) with
    | .ok v => (.ok v, [.command (.obj cmd)])
    | .error _ => (.error ("Unsupported MongoDB shell method: " ++ method), [.command (.obj cmd)])

/-- Dispatch of the object-with-`method` branch of `query` (the
`{collection, method, args}` format): per-method argument defaults via
`args[i] || d`, `distinct` requiring a first argument, and a generic command
fallback without a surrounding catch. -/
def methodDispatch (store : Store) (parsedQuery : JsonValue) :
    Except String JsonValue × List StoreAction :=
  let collV := (jsGet parsedQuery "collection").getD .null
  let methodV := (jsGet parsedQuery "method").getD .null
  let args := jsArgsOr parsedQuery
  let defaultCmd : Except String JsonValue × List StoreAction :=
    let cmd0 : List (String × JsonValue) := [(jsKeyOf methodV, collV)]
    let cmd :=
      if (jvLen args).getD 0 > 0 then
        (List.range ((jvLen args).getD 0)).foldl
          (fun kvs i => objSet kvs ("arg" ++ Nat.repr i) ((jvIndex args i).getD .null)) cmd0
      else cmd0
    callStore store (.command (.obj cmd))
  match methodV with
  | .str m =>
    if m = "find" then
      callStore store (.find collV (jvIndexOr args 0 (.obj [])) (jvIndexOr args 1 (.obj [])))
    else if m = "findOne" then
      callStore store (.findOne collV (jvIndexOr args 0 (.obj [])) (jvIndexOr args 1 (.obj [])))
    else if m = "aggregate" then
      callStore store (.aggregate collV (jvIndexOr args 0 (.arr [])))
    else if m = "count" ∨ m = "countDocuments" then
      callStore store (.countDocuments collV (jvIndexOr args 0 (.obj [])))
    else if m = "distinct" then
      if jvLenLt1 args then (.error "distinct requires a field parameter", [])
      else callStore store (.distinct collV ((jvIndex args 0).getD .null) (jvIndexOr args 1 (.obj [])))
    else defaultCmd
  | _ => defaultCmd

/-- The non-shell branch of `query` (the source's inner try block): parse as
JSON, normalize, then route on shape. Every error produced here — including a
store failure from a call made inside this block — is caught by the source's
JSON catch and wrapped as an invalid-query-format message by the caller. -/
def jsonPath (store : Store) (query : String) (params : List JsonValue) :
    Except String JsonValue × List StoreAction :=
  match jsonParse query with
  | .error e => (.error e, [])
  | .ok parsedQuery =>
    match normalizeQueryObject parsedQuery with
    | .error e => (.error e, [])
    | .ok normalizedQuery =>
      if truthyO (jsGet parsedQuery "runCommand") then
        callStore store (.command ((jsGet parsedQuery "runCommand").getD .null))
      else if jvIsArr normalizedQuery then
        if params.length = 0 then
          match normalizedQuery with
          | .arr (first :: rest) =>
            if jvTruthy first && truthyO (jsGet first "collection") then
              callStore store (.aggregate ((jsGet first "collection").getD .null) (.arr rest))
            else (.error collReqMsg, [])
          | _ => (.error collReqMsg, [])
        else
          callStore store (.aggregate (params.getD 0 .null) normalizedQuery)
      else if truthyO (jsGet normalizedQuery "collection") &&
          jvIsArrO (jsGet normalizedQuery "pipeline") then
        callStore store (.aggregate ((jsGet normalizedQuery "collection").getD .null)
          ((jsGet normalizedQuery "pipeline").getD .null))
      else if truthyO (jsGet parsedQuery "collection") && truthyO (jsGet parsedQuery "method") then
        methodDispatch store parsedQuery
      else if jvIsObj parsedQuery then
        if truthyO (jsGet parsedQuery "collection") && !truthyO (jsGet parsedQuery "pipeline") &&
            !truthyO (jsGet parsedQuery "operation") && !truthyO (jsGet parsedQuery "method") then
          let filter := JsonValue.obj ((jvObjKeys parsedQuery).filterMap (fun k =>
            if k = "collection" then none
            else some (k, (jsGet parsedQuery k).getD .null)))
          callStore store (.findFilterOnly ((jsGet parsedQuery "collection").getD .null) filter)
        else
          match store (.command parsedQuery) with
          | .ok v => (.ok v, [.command parsedQuery])
          | .error _ => (.error expectedMsg, [.command parsedQuery])
      else (.error expectedMsg, [])

/-- One step inside the source's outer try: the shell branch dispatches
directly; the non-shell branch runs the inner try, whose catch wraps every
failure as an invalid-query-format message before rethrowing. -/
def runQueryInner (store : Store) (q : String) (params : List JsonValue) :
    Except String JsonValue × List StoreAction :=
  match parseShell q with
  | some sp => shellDispatch store sp.collectionName sp.method sp.args
  | none =>
    let r := jsonPath store q params
    (wrapFail "Invalid query format: " r.1, r.2)

/-- The `query` method of `MongoDBDatabase` (read path), with the connection
assumed established: returns the result or the final error message, together
with the list of store primitives invoked. The outer catch wraps every
failure as a query-execution failure. -/
def query (store : Store) (q : String) (params : List JsonValue) :
    Except String JsonValue × List StoreAction :=
  let r := runQueryInner store q params
  (wrapFail "Query execution failed: " r.1, r.2)

/-- A store whose primitives all succeed with a null document, used to
instantiate store-parametric theorems at a concrete input. -/
def mockStore : Store := fun _ => .ok .null

/-- A store whose primitives all fail with the message `boom`, exhibiting
error-propagation behaviour. -/
def boomStore : Store := fun _ => .error "boom"

/-- The last element of a list extended by one element. -/
theorem getLastD_append_single {α : Type} (l : List α) (x d : α) :
    (l ++ [x]).getLastD d = x := by
  induction l with
  | nil => rfl
  | cons a t ih =>
    cases t with
    | nil => rfl
    | cons b u => simpa using ih

/-- The argument scan of `splitArgs` and the spec-side segment scan walk the
same control states; the arguments accumulated are exactly the coercions of
the raw segments accumulated, and the pending segments agree. -/
theorem foldl_scan_seg (l : List Char) :
    ∀ (ctl : Ctl) (cur : List Char) (segs : List (List Char)),
      l.foldl scanStep ⟨ctl, cur, segs.map parseSegment⟩ =
        ⟨(l.foldl segStep ⟨ctl, cur, segs⟩).ctl,
         (l.foldl segStep ⟨ctl, cur, segs⟩).cur,
         (l.foldl segStep ⟨ctl, cur, segs⟩).segs.map parseSegment⟩ := by
  induction l with
  | nil => intro ctl cur segs; rfl
  | cons c t ih =>
    intro ctl cur segs
    simp only [List.foldl_cons]
    by_cases h : isSplitComma ctl c = true
    · have h1 : scanStep ⟨ctl, cur, segs.map parseSegment⟩ c =
          ⟨ctlStep ctl c, [], (segs ++ [cur]).map parseSegment⟩ := by
        simp [scanStep, h]
      have h2 : segStep ⟨ctl, cur, segs⟩ c = ⟨ctlStep ctl c, [], segs ++ [cur]⟩ := by
        simp [segStep, h]
      rw [h1, h2]
      exact ih (ctlStep ctl c) [] (segs ++ [cur])
    · have h1 : scanStep ⟨ctl, cur, segs.map parseSegment⟩ c =
          ⟨ctlStep ctl c, cur ++ [c], segs.map parseSegment⟩ := by
        simp [scanStep, h]
      have h2 : segStep ⟨ctl, cur, segs⟩ c = ⟨ctlStep ctl c, cur ++ [c], segs⟩ := by
        simp [segStep, h]
      rw [h1, h2]
      exact ih (ctlStep ctl c) (cur ++ [c]) segs

/-- Claim C1 (code evaluation). The two read texts `db.getCollection("x").find({})`
and `db.x.find({})` do translate to the same canonical invocation with
collection `x` and method `find`, but its argument list is `[[{}]]` — a single
argument holding the list produced by `JSON.parse("[{}]")`, because the fast
path of `splitArgs` wraps the parsed list instead of returning it — not the
claimed `[{}, {}]`; the store consequently receives the array `[{}]` as the
filter (and `{}` as options only via the dispatcher default). -/
theorem claim_C1_eval :
    parseShell "db.getCollection(\"x\").find(\x7b\x7d)" =
      some ⟨"x", "find", [.arr [.obj []]]⟩ ∧
    parseShell "db.x.find(\x7b\x7d)" = parseShell "db.getCollection(\"x\").find(\x7b\x7d)" ∧
    ∀ store : Store, (query store "db.x.find(\x7b\x7d)" []).2 =
      [.find (.str "x") (.arr [.obj []]) (.obj [])] :=
  ⟨rfl, rfl, fun _ => rfl⟩

/-- Claim C2 (code evaluation). Translating
`db.x.find({a:1}).sort({a:1}).limit(5).skip(2)` does not produce the claimed
filter `{a:1}` and options `{sort:{a:1}, limit:5, skip:2}`: the greedy
argument capture ends at the final closing parenthesis, so `.skip(2` remains
inside the primary argument text (its `)` was consumed as the outer closer and
the chained-call pattern cannot match it), the filter degenerates to the raw
string `"{a:1}).skip(2"`, and the sort literal `{a:1}` fails both JSON parses,
leaving only `limit: 5` in the options. -/
theorem claim_C2_eval :
    parseShell "db.x.find(\x7ba:1\x7d).sort(\x7ba:1\x7d).limit(5).skip(2)" =
      some ⟨"x", "find", [.str "\x7ba:1\x7d).skip(2", .obj [("limit", .num 5 0)]]⟩ :=
  rfl

/-- Claim C3 counterexample. For the input `1,2` — two top-level
comma-separated JSON literals — `splitArgs` returns a single element (the fast
path wraps the list parsed from `[1,2]`), not two. -/
theorem claim_C3_cex :
    (splitArgs "1,2").length = 1 ∧ (topLevelSegments "1,2").length = 2 :=
  ⟨rfl, rfl⟩

/-- Claim C3 as amended: when the direct `JSON.parse("[" + s + "]")` fast path
fails (so the character scan runs) and the final top-level segment is not all
whitespace, the number of returned elements equals the number of top-level
comma-separated argument substrings (commas at zero brace/bracket depth and
outside quotes). -/
theorem claim_C3_amended (s : String)
    (hfast : (jsonParse ("[" ++ s ++ "]")).isOk = false)
    (hne : jsTrim s ≠ "")
    (hlast : jsTrim ((topLevelSegments s).getLastD []).asString ≠ "") :
    (splitArgs s).length = (topLevelSegments s).length := by
  unfold splitArgs
  rw [if_neg hne]
  cases hjp : jsonParse ("[" ++ s ++ "]") with
  | ok v => rw [hjp] at hfast; simp [Except.isOk, Except.toBool] at hfast
  | error e =>
    have hfold := foldl_scan_seg s.toList ctl0 [] []
    simp only [List.map_nil] at hfold
    unfold slowSplit topLevelSegments
    unfold topLevelSegments at hlast
    rw [getLastD_append_single] at hlast
    simp only [String.toList] at hfold hlast ⊢
    rw [hfold]
    simp [hlast]

/-- Claim C3 amended, witness: the input `1, {` (fast path fails, final
segment nonblank) has two top-level segments and `splitArgs` returns two
elements. -/
theorem claim_C3_amended_witness :
    (jsonParse ("[" ++ "1, \x7b" ++ "]")).isOk = false ∧
    jsTrim "1, \x7b" ≠ "" ∧
    jsTrim ((topLevelSegments "1, \x7b").getLastD []).asString ≠ "" ∧
    (splitArgs "1, \x7b").length = (topLevelSegments "1, \x7b").length :=
  ⟨rfl, by decide, by decide,
    claim_C3_amended "1, \x7b" rfl (by decide) (by decide)⟩

/-- Claim C4. The literal tokenizer is total by construction (every
`JSON.parse` occurrence in the source body is inside try/catch and every other
operation is a pure string scan), and an input whose JavaScript trim is empty
yields the empty sequence — never a one-element sequence holding an empty
string. -/
theorem claim_C4_blank (s : String) (h : jsTrim s = "") : splitArgs s = [] := by
  unfold splitArgs
  rw [if_pos h]

/-- Claim C4, witness at an all-whitespace input. -/
theorem claim_C4_blank_witness :
    jsTrim "  \t " = "" ∧ splitArgs "  \t " = [] :=
  ⟨rfl, claim_C4_blank "  \t " rfl⟩

/-- Claim C5. A read whose canonical method is `distinct` with an empty
argument list fails with the missing-field error and invokes no store
primitive, on both paths: the shell-syntax path reports
`Query execution failed: distinct requires a field parameter`, and the
`{collection, method, args}` object path reports the same message additionally
wrapped by the JSON catch as an invalid-query-format failure; in both cases
the store call log is empty. -/
theorem claim_C5_distinct_no_args :
    (∀ (store : Store) (q : String) (params : List JsonValue) (c : String),
      parseShell q = some ⟨c, "distinct", []⟩ →
      query store q params =
        (.error "Query execution failed: distinct requires a field parameter", []))
    ∧
    (∀ (store : Store) (q : String) (params : List JsonValue) (v w : JsonValue),
      parseShell q = none →
      jsonParse q = .ok v →
      normalizeQueryObject v = .ok w →
      truthyO (jsGet v "runCommand") = false →
      jvIsArr w = false →
      (truthyO (jsGet w "collection") && jvIsArrO (jsGet w "pipeline")) = false →
      truthyO (jsGet v "collection") = true →
      jsGet v "method" = some (.str "distinct") →
      jsArgsOr v = .arr [] →
      query store q params =
        (.error "Query execution failed: Invalid query format: distinct requires a field parameter",
         [])) := by
  constructor
  · intro store q params c h
    simp [query, runQueryInner, h, shellDispatch, wrapFail]
  · intro store q params v w h1 h2 h3 h4 h5 h6 h7 h8 h9
    have hds : truthyO (some (JsonValue.str "distinct")) = true := rfl
    simp [query, runQueryInner, h1, jsonPath, h2, h3, h4, h5, h6, h7, hds,
      methodDispatch, h8, h9, jvLenLt1, jvLen, wrapFail]

/-- Claim C5, witness: the shell text `db.x.distinct()` and the object text
`{"collection":"x","method":"distinct"}`. -/
theorem claim_C5_distinct_no_args_witness :
    query mockStore "db.x.distinct()" [] =
      (.error "Query execution failed: distinct requires a field parameter", []) ∧
    query mockStore "\x7b\"collection\":\"x\",\"method\":\"distinct\"\x7d" [] =
      (.error "Query execution failed: Invalid query format: distinct requires a field parameter",
       []) :=
  ⟨claim_C5_distinct_no_args.1 mockStore "db.x.distinct()" [] "x" rfl,
   claim_C5_distinct_no_args.2 mockStore "\x7b\"collection\":\"x\",\"method\":\"distinct\"\x7d" []
     (.obj [("collection", .str "x"), ("method", .str "distinct")])
     (.obj [("collection", .str "x"), ("method", .str "distinct")])
     rfl rfl rfl rfl rfl rfl rfl rfl rfl⟩

/-- Claim C6. Text that matches neither shell pattern and fails JSON parsing
makes the read fail with the malformed-input message carrying the parse
failure, and no store primitive is invoked. -/
theorem claim_C6_malformed (store : Store) (q : String) (params : List JsonValue) (e : String)
    (hShell : parseShell q = none) (hJson : jsonParse q = .error e) :
    query store q params =
      (.error ("Query execution failed: " ++ ("Invalid query format: " ++ e)), []) := by
  simp [query, runQueryInner, hShell, jsonPath, hJson, wrapFail]

/-- Claim C6, witness at the repository test's own malformed input. -/
theorem claim_C6_malformed_witness :
    query mockStore "not a json string" [] =
      (.error "Query execution failed: Invalid query format: Unexpected token in JSON", []) :=
  claim_C6_malformed mockStore "not a json string" [] "Unexpected token in JSON" rfl rfl

/-- Claim C7. Normalizing
`{"collection":"users","match":{"age":{"$gt":21}},"sort":{"name":1},"limit":10}`
yields the `{collection, pipeline}` form whose stages are exactly
`$match`, `$sort`, `$limit` in the declared key order, each a single-key
object with the `$` prefix prepended and the payload unchanged; the read then
dispatches exactly one aggregate on `users` with those stages. -/
theorem claim_C7_stage_shorthand :
    normalizeQueryObject (.obj [("collection", .str "users"),
        ("match", .obj [("age", .obj [("$gt", .num 21 0)])]),
        ("sort", .obj [("name", .num 1 0)]),
        ("limit", .num 10 0)]) =
      .ok (.obj [("collection", .str "users"),
        ("pipeline", .arr [.obj [("$match", .obj [("age", .obj [("$gt", .num 21 0)])])],
          .obj [("$sort", .obj [("name", .num 1 0)])],
          .obj [("$limit", .num 10 0)]])]) ∧
    ∀ store : Store,
      (query store "\x7b\"collection\":\"users\",\"match\":\x7b\"age\":\x7b\"$gt\":21\x7d\x7d,\"sort\":\x7b\"name\":1\x7d,\"limit\":10\x7d" []).2 =
        [.aggregate (.str "users")
          (.arr [.obj [("$match", .obj [("age", .obj [("$gt", .num 21 0)])])],
            .obj [("$sort", .obj [("name", .num 1 0)])],
            .obj [("$limit", .num 10 0)]])] :=
  ⟨rfl, fun _ => rfl⟩

/-- Claim C8. A read whose parsed text is a pipeline array: with positional
parameter `["users"]` it dispatches exactly one aggregate on `users` with the
stages in order and unmodified; with no positional parameter and a first
element carrying a truthy `collection` field, the collection is taken from
that element and that element is removed from the stage sequence before
aggregating. -/
theorem claim_C8_pipeline_array :
    (∀ (store : Store) (q : String) (stages : List JsonValue),
      parseShell q = none →
      jsonParse q = .ok (.arr stages) →
      (query store q [.str "users"]).2 = [.aggregate (.str "users") (.arr stages)])
    ∧
    (∀ (store : Store) (q : String) (s0kvs : List (String × JsonValue))
        (rest : List JsonValue) (c : JsonValue),
      parseShell q = none →
      jsonParse q = .ok (.arr (.obj s0kvs :: rest)) →
      jsGet (.obj s0kvs) "collection" = some c →
      jvTruthy c = true →
      (query store q []).2 = [.aggregate c (.arr rest)]) := by
  constructor
  · intro store q stages hShell hJson
    have hrc : jsGet (JsonValue.arr stages) "runCommand" = none := rfl
    have hnorm : normalizeQueryObject (.arr stages) = .ok (.arr stages) := rfl
    simp [query, runQueryInner, hShell, jsonPath, hJson, hnorm, hrc,
      truthyO, jvIsArr, callStore]
  · intro store q s0kvs rest c hShell hJson hColl hTruthy
    have hrc : jsGet (JsonValue.arr (JsonValue.obj s0kvs :: rest)) "runCommand" = none := rfl
    have hnorm : normalizeQueryObject (.arr (.obj s0kvs :: rest)) =
        .ok (.arr (.obj s0kvs :: rest)) := rfl
    have hfirst : jvTruthy (JsonValue.obj s0kvs) = true := rfl
    have htc : truthyO (some c) = jvTruthy c := rfl
    have hn : truthyO (none : Option JsonValue) = false := rfl
    have hia : jvIsArr (JsonValue.arr (JsonValue.obj s0kvs :: rest)) = true := rfl
    simp [query, runQueryInner, hShell, jsonPath, hJson, hnorm, hrc, hn, hia,
      hfirst, hColl, htc, hTruthy, callStore]

/-- Claim C8, witness: the pipeline `[{"$match":{}}]` with parameter
`["users"]`, and the pipeline `[{"collection":"users"},{"$sort":{"name":1}}]`
with no parameter. -/
theorem claim_C8_pipeline_array_witness :
    (query mockStore "[\x7b\"$match\":\x7b\x7d\x7d]" [.str "users"]).2 =
      [.aggregate (.str "users") (.arr [.obj [("$match", .obj [])]])] ∧
    (query mockStore "[\x7b\"collection\":\"users\"\x7d,\x7b\"$sort\":\x7b\"name\":1\x7d\x7d]" []).2 =
      [.aggregate (.str "users") (.arr [.obj [("$sort", .obj [("name", .num 1 0)])]])] :=
  ⟨claim_C8_pipeline_array.1 mockStore "[\x7b\"$match\":\x7b\x7d\x7d]"
     [.obj [("$match", .obj [])]] rfl rfl,
   claim_C8_pipeline_array.2 mockStore
     "[\x7b\"collection\":\"users\"\x7d,\x7b\"$sort\":\x7b\"name\":1\x7d\x7d]"
     [("collection", .str "users")] [.obj [("$sort", .obj [("name", .num 1 0)])]]
     (.str "users") rfl rfl rfl rfl⟩

/-- Claim C9 (code evaluation). When the store's aggregate primitive fails
with the message `boom` during a pipeline-array read, the caller receives
`Query execution failed: Invalid query format: boom` — the store failure is
caught by the JSON-parse catch and relabelled as a malformed-query failure
(the message is carried but the error kind is reinterpreted). On the shell
path the same store failure is reported as `Query execution failed: boom`
without relabelling. -/
theorem claim_C9_store_error_relabelled :
    query boomStore "[\x7b\"$match\":\x7b\x7d\x7d]" [.str "users"] =
      (.error "Query execution failed: Invalid query format: boom",
       [.aggregate (.str "users") (.arr [.obj [("$match", .obj [])]])]) ∧
    query boomStore "db.x.find(\x7b\x7d)" [] =
      (.error "Query execution failed: boom",
       [.find (.str "x") (.arr [.obj []]) (.obj [])]) :=
  ⟨rfl, rfl⟩

/-- Claim C10. The query-object normalizer is idempotent: every value it
produces is again accepted and returned unchanged (the `Except` threads the
`TypeError` that `Object.keys(null)` raises; a value on which the normalizer
fails has no output to renormalize). -/
theorem claim_C10_normalize_idempotent (v w : JsonValue)
    (h : normalizeQueryObject v = .ok w) :
    normalizeQueryObject w = .ok w := by
  by_cases harr : jvIsArr v = true
  · unfold normalizeQueryObject at h
    rw [if_pos harr] at h
    cases h
    unfold normalizeQueryObject
    rw [if_pos harr]
  · have harr' : jvIsArr v = false := by
      cases hv : jvIsArr v
      · rfl
      · exact absurd hv harr
    unfold normalizeQueryObject at h
    rw [if_neg (by simp [harr'])] at h
    cases hk : jsKeys v with
    | error e => rw [hk] at h; cases h
    | ok keys =>
      rw [hk] at h
      simp only at h
      split at h
      · -- raw stage array produced: an array is a fixed point
        cases h
        rfl
      · split at h
        · -- {collection, pipeline} produced
          cases h
          rename_i hcond
          unfold normalizeQueryObject
          simp [jvIsArr, jsKeys, dedupKeys, jsGet, truthyO, jvTruthy, pipelineStages]
        · -- default: the input is returned unchanged
          cases h
          unfold normalizeQueryObject
          rw [if_neg (by simp [harr'])]
          rw [hk]
          simp only
          rename_i hc2 hc3
          rw [if_neg hc2, if_neg hc3]

/-- Claim C10, witness at a stage-shorthand mapping whose normal form is a
`{collection, pipeline}` object. -/
theorem claim_C10_normalize_idempotent_witness :
    normalizeQueryObject
        (.obj [("collection", .str "u"), ("match", .obj [])]) =
      .ok (.obj [("collection", .str "u"),
        ("pipeline", .arr [.obj [("$match", .obj [])]])]) ∧
    normalizeQueryObject
        (.obj [("collection", .str "u"),
          ("pipeline", .arr [.obj [("$match", .obj [])]])]) =
      .ok (.obj [("collection", .str "u"),
        ("pipeline", .arr [.obj [("$match", .obj [])]])]) :=
  ⟨rfl, claim_C10_normalize_idempotent
    (.obj [("collection", .str "u"), ("match", .obj [])])
    (.obj [("collection", .str "u"), ("pipeline", .arr [.obj [("$match", .obj [])]])])
    rfl⟩

end MongoDBDatabase
